import Mathlib

/- Verification development for the AOS-GPT front-end sources: the sandboxed
iframe embed component (sandbox attribute, postMessage contract, HTML
dependency injection, manual drag resize), the sign-in page handlers, and the
i18n loading store.  HTML strings handled by the injection routines are
modelled as lists of characters; machine events are modelled by explicit
state-passing functions translated from the component code. -/

abbrev Str := List Char

/- ------------------------------------------------------------------ -/
/- Sandbox attribute (FullHeightIframe: derived `sandbox` value)       -/
/- ------------------------------------------------------------------ -/

/-- Tokens contributed by the five boolean props, in the source order.
Mirrors the array literal of flag-guarded tokens followed by
filter(Boolean): a false flag yields no entry. -/
def sandboxTokens (allowScripts allowForms allowSameOrigin allowPopups allowDownloads : Bool) :
    List String :=
  [if allowScripts then some "allow-scripts" else none,
   if allowForms then some "allow-forms" else none,
   if allowSameOrigin then some "allow-same-origin" else none,
   if allowPopups then some "allow-popups" else none,
   if allowDownloads then some "allow-downloads" else none].filterMap id

/-- The derived sandbox attribute: the selected tokens joined with single
spaces; the empty join (a falsy string) becomes an absent attribute,
modelled as none. -/
def sandbox (allowScripts allowForms allowSameOrigin allowPopups allowDownloads : Bool) :
    Option String :=
  let joined := String.intercalate " "
    (sandboxTokens allowScripts allowForms allowSameOrigin allowPopups allowDownloads)
  if joined = "" then none else some joined

/-- Modelled from the claim text, for comparison with the code: the attribute
holds exactly the tokens of the true props joined by single spaces in the
fixed order, and is absent when all five props are false. -/
def sandboxSpec (allowScripts allowForms allowSameOrigin allowPopups allowDownloads : Bool) :
    Option String :=
  if allowScripts = false ∧ allowForms = false ∧ allowSameOrigin = false ∧
      allowPopups = false ∧ allowDownloads = false then
    none
  else
    some (String.intercalate " "
      ((if allowScripts then ["allow-scripts"] else []) ++
       (if allowForms then ["allow-forms"] else []) ++
       (if allowSameOrigin then ["allow-same-origin"] else []) ++
       (if allowPopups then ["allow-popups"] else []) ++
       (if allowDownloads then ["allow-downloads"] else [])))

/- ------------------------------------------------------------------ -/
/- i18n isLoading store (src/lib/i18n/index.ts)                        -/
/- ------------------------------------------------------------------ -/

/-- Lifecycle events emitted by the i18n library that the stores observe.
The loaded event carries the keys of the loaded resources object. -/
inductive I18nEvent where
  | initialised
  | loaded (resourceKeys : List String)
  | added
  | languageChanged
  | failedLoading
  deriving DecidableEq

/-- Initial value of the isLoading writable store. -/
def isLoadingInit : Bool := false

/-- Effect of one i18n lifecycle event on the isLoading store:
loaded sets it to whether the resources object has zero keys,
failedLoading sets it to true, and no other event is subscribed. -/
def isLoadingStep (current : Bool) (e : I18nEvent) : Bool :=
  match e with
  | I18nEvent.loaded keys => keys.length == 0
  | I18nEvent.failedLoading => true
  | _ => current

/- ------------------------------------------------------------------ -/
/- resizeSameOrigin (FullHeightIframe)                                 -/
/- ------------------------------------------------------------------ -/

/-- Outcome of reading the embedded document from the host: the read may
raise a DOM exception (cross-origin), may yield no document, or yields a
document whose documentElement and body each may be absent and otherwise
report a scroll height. -/
inductive DocAccess where
  | throws
  | noDoc
  | doc (docElementHeight : Option Nat) (bodyHeight : Option Nat)
  deriving DecidableEq

/-- resizeSameOrigin: returns the new containerHeight.  A missing iframe, a
thrown document read (swallowed by the catch), a missing document, or a
non-positive measured height leave the height unchanged; a positive maximal
scroll height h sets it to h + 20. -/
def resizeSameOrigin (iframeMounted : Bool) (access : DocAccess) (containerHeight : Nat) : Nat :=
  if !iframeMounted then containerHeight
  else
    match access with
    | DocAccess.throws => containerHeight
    | DocAccess.noDoc => containerHeight
    | DocAccess.doc de be =>
      let h := max (de.getD 0) (be.getD 0)
      if h > 0 then h + 20 else containerHeight

/- ------------------------------------------------------------------ -/
/- Corner drag resize (FullHeightIframe: onDragMove)                   -/
/- ------------------------------------------------------------------ -/

/-- Host-side state touched by the drag handlers. containerWidth is none
while the container still uses 100% width. -/
structure DragState where
  isDragging : Bool
  dragStartX : Int
  dragStartY : Int
  dragStartHeight : Int
  dragStartWidth : Int
  containerHeight : Int
  containerWidth : Option Int
  deriving DecidableEq

/-- onDragMove: ignores the event unless a drag is active, otherwise clamps
the dragged dimensions at 200 (height) and 300 (width) pixels. -/
def onDragMove (s : DragState) (clientX clientY : Int) : DragState :=
  if !s.isDragging then s
  else
    { s with
      containerHeight := max 200 (s.dragStartHeight + (clientY - s.dragStartY)),
      containerWidth := some (max 300 (s.dragStartWidth + (clientX - s.dragStartX))) }

/-- Folds a sequence of mousemove events (clientX, clientY) through
onDragMove. -/
def runDrag (s : DragState) : List (Int × Int) → DragState
  | [] => s
  | m :: ms => runDrag (onDragMove s m.1 m.2) ms

/-- Invariant reached after any mousemove of an active drag: still dragging,
height at least 200, width set and at least 300. -/
def dragInv (s : DragState) : Prop :=
  s.isDragging = true ∧ 200 ≤ s.containerHeight ∧
    s.containerWidth.isSome = true ∧ ∀ w, s.containerWidth = some w → 300 ≤ w

/- ------------------------------------------------------------------ -/
/- postMessage contract (FullHeightIframe: onMessage)                  -/
/- ------------------------------------------------------------------ -/

/-- Fields of an incoming message's data object after the defaulting of a
falsy data value to an empty object: a possibly absent type string, a height
field present as some only when it holds a number, and a request id that is
none when absent or nullish. -/
structure MsgData where
  msgType : Option String
  height : Option Int
  requestId : Option Int
  deriving DecidableEq

/-- A message event: the posting window (none models a null source) and the
data object. -/
structure MsgEvent where
  source : Option Nat
  data : MsgData
  deriving DecidableEq

/-- Messages the host posts back into the iframe. -/
inductive HostReply (α : Type) where
  | pongAck
  | payloadReply (requestId : Option Int) (payload : α)
  deriving DecidableEq

/-- Height update performed by onMessage: only a message of type
iframe:height whose height field is a number changes containerHeight, to
max(200, height). -/
def heightUpdate (containerHeight : Int) (d : MsgData) : Int :=
  if d.msgType = some "iframe:height" then
    match d.height with
    | some h => max 200 h
    | none => containerHeight
  else containerHeight

/-- onMessage: returns the new containerHeight and the replies posted back.
Windows are modelled by identifiers; the iframe argument is the mounted
iframe's contentWindow (none when no iframe is mounted).  Events whose
source is not that window are dropped before any processing. -/
def onMessage {α : Type} (iframe : Option Nat) (payload : α) (containerHeight : Int)
    (e : MsgEvent) : Int × List (HostReply α) :=
  match iframe with
  | none => (containerHeight, [])
  | some w =>
    if e.source = some w then
      let d := e.data
      let pongReplies := if d.msgType = some "pong" then [HostReply.pongAck] else []
      let payloadReplies :=
        if d.msgType = some "payload" then [HostReply.payloadReply d.requestId payload]
        else []
      (heightUpdate containerHeight d, pongReplies ++ payloadReplies)
    else (containerHeight, [])

/-- Whether a message event comes from the mounted iframe's contentWindow. -/
def fromIframe (iframe : Option Nat) (e : MsgEvent) : Bool :=
  match iframe with
  | none => false
  | some w => decide (e.source = some w)

/-- Feeds a list of message events through onMessage, accumulating the
containerHeight and every reply posted. -/
def runHost {α : Type} (iframe : Option Nat) (payload : α)
    (st : Int × List (HostReply α)) : List MsgEvent → Int × List (HostReply α)
  | [] => st
  | e :: es =>
    let r := onMessage iframe payload st.1 e
    runHost iframe payload (r.1, st.2 ++ r.2) es

/- ------------------------------------------------------------------ -/
/- Sign-in page (setSessionUser, signInHandler, signUpHandler)         -/
/- ------------------------------------------------------------------ -/

/-- Toast notifications shown by the auth page. -/
inductive Toast where
  | success
  | error (msg : String)
  deriving DecidableEq

/-- The session user returned by the auth API; only the token field is
inspected by the handlers (none models a nullish token). -/
structure SessionUser where
  token : Option String
  deriving DecidableEq

/-- Observable effects of one run of an auth handler. -/
structure AuthEffects where
  toasts : List Toast
  storedToken : Option String
  socketJoined : Bool
  userStore : Option SessionUser
  configSet : Bool
  timezoneUpdated : Bool
  navigatedTo : Option String
  clearedRedirectPath : Bool
  deriving DecidableEq

/-- No observable effect. -/
def noEffects : AuthEffects :=
  { toasts := [], storedToken := none, socketJoined := false, userStore := none,
    configSet := false, timezoneUpdated := false, navigatedTo := none,
    clearedRedirectPath := false }

/-- JS truthiness of a value that is either nullish (none) or a string:
only a non-empty string is truthy. -/
def jsTruthy : Option String → Bool
  | none => false
  | some s => s != ""

/-- setSessionUser: with no session user nothing happens; with a session
user it shows a success toast, stores the token when truthy, joins the
socket, sets the user and config stores, updates the timezone when both the
token and a timezone are truthy, navigates to the explicit redirect path if
truthy, else to the truthy redirect query parameter, else to the root, and
clears the stored redirect path. -/
def setSessionUser (sessionUser : Option SessionUser) (redirectPathArg : Option String)
    (redirectParam : Option String) (timezone : Option String) : AuthEffects :=
  match sessionUser with
  | none => noEffects
  | some u =>
    let rp :=
      if jsTruthy redirectPathArg then redirectPathArg.getD "/"
      else if jsTruthy redirectParam then redirectParam.getD "/"
      else "/"
    { toasts := [Toast.success],
      storedToken := if jsTruthy u.token then u.token else none,
      socketJoined := true,
      userStore := some u,
      configSet := true,
      timezoneUpdated := jsTruthy u.token && jsTruthy timezone,
      navigatedTo := some rp,
      clearedRedirectPath := true }

/-- Result of an auth API call: resolution with a session user, or
rejection with an error. -/
inductive ApiResult where
  | ok (u : SessionUser)
  | err (msg : String)
  deriving DecidableEq

/-- signInHandler: a rejected call shows an error toast and hands null to
setSessionUser (a no-op); a resolved call hands the session user over. -/
def signInHandler (res : ApiResult) (redirectParam : Option String)
    (timezone : Option String) : AuthEffects :=
  match res with
  | ApiResult.ok u => setSessionUser (some u) none redirectParam timezone
  | ApiResult.err m =>
    let base := setSessionUser none none redirectParam timezone
    { base with toasts := Toast.error m :: base.toasts }

/-- signUpHandler: when password confirmation is enabled and the passwords
differ it only shows an error toast; otherwise it behaves as the sign-in
handler does on the API result. -/
def signUpHandler (confirmEnabled : Bool) (password confirmPassword : String)
    (res : ApiResult) (redirectParam : Option String) (timezone : Option String) : AuthEffects :=
  if confirmEnabled && password != confirmPassword then
    { noEffects with toasts := [Toast.error "Passwords do not match."] }
  else
    match res with
    | ApiResult.ok u => setSessionUser (some u) none redirectParam timezone
    | ApiResult.err m =>
      let base := setSessionUser none none redirectParam timezone
      { base with toasts := Toast.error m :: base.toasts }

/- ------------------------------------------------------------------ -/
/- HTML dependency injection (processHtmlForDeps)                      -/
/- ------------------------------------------------------------------ -/

/-- String.includes on character lists: whether pat occurs somewhere in the
second argument. -/
def containsSub (pat : Str) : Str → Bool
  | [] => pat.isEmpty
  | c :: t => pat.isPrefixOf (c :: t) || containsSub pat t

/-- Splits a string around the first occurrence of pat: returns the part
before the first occurrence and the part after it; none when pat does not
occur. -/
def splitFirst (pat : Str) : Str → Option (Str × Str)
  | [] => if pat.isEmpty then some ([], []) else none
  | c :: t =>
    if pat.isPrefixOf (c :: t) then some ([], (c :: t).drop pat.length)
    else
      match splitFirst pat t with
      | some pp => some (c :: pp.1, pp.2)
      | none => none

/-- String.replace with a string pattern: replaces only the first
occurrence of pat with repl, the identity when pat does not occur. -/
def replaceFirst (s pat repl : Str) : Str :=
  match splitFirst pat s with
  | some pp => pp.1 ++ repl ++ pp.2
  | none => s

/-- The closing head tag looked for by the injection code. -/
def headTag : Str := "</head>".toList

/-- The closing body tag looked for by the injection code. -/
def bodyTag : Str := "</body>".toList

/-- Insertion of the joined script tags: before the first closing head tag
when one exists, else before the first closing body tag when one exists,
else prepended to the whole HTML (always with a joining newline). -/
def injectTags (tags html : Str) : Str :=
  if containsSub headTag html then replaceFirst html headTag (tags ++ '\n' :: headTag)
  else if containsSub bodyTag html then replaceFirst html bodyTag (tags ++ '\n' :: bodyTag)
  else tags ++ '\n' :: html

/-- The Alpine directive substrings whose presence triggers the Alpine.js
injection. -/
def alpineDirectives : List Str :=
  ["x-data", "x-init", "x-show", "x-bind", "x-on", "x-text", "x-html", "x-model",
   "x-modelable", "x-ref", "x-for", "x-if", "x-effect", "x-transition", "x-cloak",
   "x-ignore", "x-teleport", "x-id"].map String.toList

/-- The Chart.js directive substrings whose presence triggers the Chart.js
injection. -/
def chartJsDirectives : List Str :=
  ["new Chart(", "Chart."].map String.toList

/-- Whether the HTML uses any Alpine directive. -/
def hasAlpineDirectives (html : Str) : Bool :=
  alpineDirectives.any (fun d => containsSub d html)

/-- Whether the HTML uses Chart.js. -/
def hasChartJsDirectives (html : Str) : Bool :=
  chartJsDirectives.any (fun d => containsSub d html)

/-- The script tags pushed for the detected dependencies, in source order:
the Alpine tag, then the Chart tag.  Each tag is an Option because the
dynamic loading of the dependency is wrapped in try/catch: none models a
failed load, which skips the push. -/
def scriptTagsFor (alpineTag chartTag : Option Str) (html : Str) : List Str :=
  (if hasAlpineDirectives html then alpineTag.toList else []) ++
  (if hasChartJsDirectives html then chartTag.toList else [])

/-- processHtmlForDeps: the identity unless allowSameOrigin is set; with it
set, detects dependencies, and when at least one tag was produced splices
the newline-joined tags into the HTML. -/
def processHtmlForDeps (allowSameOrigin : Bool) (alpineTag chartTag : Option Str)
    (html : Str) : Str :=
  if !allowSameOrigin then html
  else
    let scriptTags := scriptTagsFor alpineTag chartTag html
    if scriptTags.isEmpty then html
    else injectTags (List.intercalate ['\n'] scriptTags) html

/- ------------------------------------------------------------------ -/
/- Theorems                                                            -/
/- ------------------------------------------------------------------ -/

/-- Claim C1: for every combination of the five boolean props the sandbox
attribute holds exactly the enabled tokens, space separated, in the fixed
order, and is absent when all props are false; under the default props it is
"allow-scripts allow-downloads"; with allowSameOrigin false the
allow-same-origin token is never emitted. -/
theorem sandbox_attribute_correct :
    (∀ s f o p d, sandbox s f o p d = sandboxSpec s f o p d)
    ∧ sandbox true false false false true = some "allow-scripts allow-downloads"
    ∧ (∀ s f p d, "allow-same-origin" ∉ sandboxTokens s f false p d) := by
  refine ⟨?_, by decide, ?_⟩
  · intro s f o p d
    cases s <;> cases f <;> cases o <;> cases p <;> cases d <;> rfl
  · intro s f p d
    cases s <;> cases f <;> cases p <;> cases d <;> decide

/-- Claim C6: the isLoading store starts at false; a loaded event makes it
true exactly when the resources object has zero keys; a failedLoading event
makes it true; every other observed event leaves it unchanged. -/
theorem isLoading_transitions :
    isLoadingInit = false
    ∧ (∀ current keys, isLoadingStep current (I18nEvent.loaded keys) = true ↔ keys.length = 0)
    ∧ (∀ current, isLoadingStep current I18nEvent.failedLoading = true)
    ∧ (∀ current e, (∀ keys, e ≠ I18nEvent.loaded keys) → e ≠ I18nEvent.failedLoading →
        isLoadingStep current e = current) := by
  refine ⟨rfl, ?_, fun _ => rfl, ?_⟩
  · intro current keys
    simp [isLoadingStep]
  · intro current e h1 h2
    cases e with
    | initialised => rfl
    | loaded keys => exact absurd rfl (h1 keys)
    | added => rfl
    | languageChanged => rfl
    | failedLoading => exact absurd rfl h2

/-- Witness for C6 at concrete events. -/
theorem isLoading_transitions_witness :
    isLoadingStep true I18nEvent.added = true
    ∧ isLoadingStep false (I18nEvent.loaded []) = true := by
  have h := isLoading_transitions
  exact ⟨h.2.2.2 true I18nEvent.added (fun _ hk => nomatch hk) (fun hk => nomatch hk),
    (h.2.1 false []).mpr rfl⟩

/-- Claim C7: resizeSameOrigin is a total function (the DOM exception is
swallowed); with no iframe, a throwing read, no document, or a maximal
measured scroll height of zero, the container height is unchanged; only a
positive maximal height h sets it, to h + 20. -/
theorem resizeSameOrigin_no_throw :
    (∀ a ch, resizeSameOrigin false a ch = ch)
    ∧ (∀ ch, resizeSameOrigin true DocAccess.throws ch = ch)
    ∧ (∀ ch, resizeSameOrigin true DocAccess.noDoc ch = ch)
    ∧ (∀ de be ch, max (de.getD 0) (be.getD 0) = 0 →
        resizeSameOrigin true (DocAccess.doc de be) ch = ch)
    ∧ (∀ de be ch h, max (de.getD 0) (be.getD 0) = h → 0 < h →
        resizeSameOrigin true (DocAccess.doc de be) ch = h + 20) := by
  refine ⟨fun _ _ => rfl, fun _ => rfl, fun _ => rfl, ?_, ?_⟩
  · intro de be ch h0
    simp [resizeSameOrigin, h0]
  · intro de be ch h hm hpos
    simp [resizeSameOrigin, hm, hpos]

/-- Witness for C7 at concrete document measurements. -/
theorem resizeSameOrigin_no_throw_witness :
    resizeSameOrigin true (DocAccess.doc (some 0) none) 650 = 650
    ∧ resizeSameOrigin true (DocAccess.doc (some 480) (some 100)) 650 = 500 := by
  have h := resizeSameOrigin_no_throw
  exact ⟨h.2.2.2.1 (some 0) none 650 (by decide),
    h.2.2.2.2 (some 480) (some 100) 650 480 (by decide) (by decide)⟩

/-- A mousemove during an active drag establishes the drag invariant. -/
theorem onDragMove_establishes (s : DragState) (x y : Int) (h : s.isDragging = true) :
    dragInv (onDragMove s x y) := by
  unfold onDragMove dragInv
  rw [h]
  refine ⟨by simp [h], by simp, by simp, ?_⟩
  intro w hw
  simp at hw
  omega

/-- runDrag preserves the drag invariant. -/
theorem runDrag_preserves (moves : List (Int × Int)) (s : DragState) (h : dragInv s) :
    dragInv (runDrag s moves) := by
  induction moves generalizing s with
  | nil => exact h
  | cons m ms ih => exact ih _ (onDragMove_establishes s m.1 m.2 h.1)

/-- Claim C9: during an active drag every mousemove sets the height to
max(200, dragStartHeight + vertical delta) and the width to max(300,
dragStartWidth + horizontal delta); hence over any nonempty sequence of drag
moves the height never drops below 200 and the width never below 300. -/
theorem drag_resize_bounds (s : DragState) (x y : Int) (moves : List (Int × Int)) :
    (s.isDragging = true →
      (onDragMove s x y).containerHeight = max 200 (s.dragStartHeight + (y - s.dragStartY))
      ∧ (onDragMove s x y).containerWidth =
          some (max 300 (s.dragStartWidth + (x - s.dragStartX))))
    ∧ (s.isDragging = true → moves ≠ [] →
      200 ≤ (runDrag s moves).containerHeight
      ∧ (runDrag s moves).containerWidth.isSome = true
      ∧ ∀ w, (runDrag s moves).containerWidth = some w → 300 ≤ w) := by
  constructor
  · intro h
    constructor <;> simp [onDragMove, h]
  · intro h hne
    cases moves with
    | nil => exact absurd rfl hne
    | cons m ms =>
      have hinv : dragInv (runDrag (onDragMove s m.1 m.2) ms) :=
        runDrag_preserves ms _ (onDragMove_establishes s m.1 m.2 h)
      exact ⟨hinv.2.1, hinv.2.2.1, hinv.2.2.2⟩

/-- Witness for C9 on a concrete drag sequence that pulls far up-left. -/
theorem drag_resize_bounds_witness :
    (onDragMove ⟨true, 10, 10, 650, 800, 650, none⟩ 0 0).containerHeight = 640
    ∧ 200 ≤ (runDrag ⟨true, 10, 10, 650, 800, 650, none⟩
        [(0, 0), (-5000, -5000)]).containerHeight := by
  have h := drag_resize_bounds ⟨true, 10, 10, 650, 800, 650, none⟩ 0 0
      [(0, 0), (-5000, -5000)]
  exact ⟨by rw [(h.1 rfl).1]; decide, (h.2 rfl (by simp)).1⟩

/-- A message event not coming from the mounted iframe's contentWindow is
dropped with no state change and no reply. -/
theorem onMessage_not_fromIframe {α : Type} (iframe : Option Nat) (payload : α) (ch : Int)
    (e : MsgEvent) (h : fromIframe iframe e = false) :
    onMessage iframe payload ch e = (ch, []) := by
  cases iframe with
  | none => rfl
  | some w =>
    have hs : ¬ e.source = some w := by simpa [fromIframe] using h
    simp [onMessage, hs]

/-- runHost only depends on the events coming from the iframe. -/
theorem runHost_filter {α : Type} (iframe : Option Nat) (payload : α) :
    ∀ (evts : List MsgEvent) (st : Int × List (HostReply α)),
      runHost iframe payload st evts =
        runHost iframe payload st (evts.filter (fromIframe iframe)) := by
  intro evts
  induction evts with
  | nil => intro st; rfl
  | cons e es ih =>
    intro st
    by_cases hf : fromIframe iframe e = true
    · rw [List.filter_cons_of_pos hf]
      simp only [runHost]
      exact ih _
    · have hf2 : fromIframe iframe e = false := by simpa using hf
      rw [List.filter_cons_of_neg (by simp [hf2])]
      simp only [runHost, onMessage_not_fromIframe iframe payload st.1 e hf2,
        List.append_nil, Prod.mk.eta]
      exact ih st

/-- Claim C2: for every message event from the iframe's contentWindow, a
message of type iframe:height with a numeric height sets containerHeight to
max(200, height) with no reply; type pong posts back a pong:ack; type
payload posts back the payload together with the echoed request id (none
models null for an absent id); a message of any other type causes no state
change and no reply. -/
theorem onMessage_contract {α : Type} (w : Nat) (payload : α) (ch : Int) (d : MsgData) :
    (∀ h, d.msgType = some "iframe:height" → d.height = some h →
      onMessage (some w) payload ch ⟨some w, d⟩ = (max 200 h, []))
    ∧ (d.msgType = some "pong" →
      onMessage (some w) payload ch ⟨some w, d⟩ = (ch, [HostReply.pongAck]))
    ∧ (d.msgType = some "payload" →
      onMessage (some w) payload ch ⟨some w, d⟩ =
        (ch, [HostReply.payloadReply d.requestId payload]))
    ∧ (d.msgType ≠ some "iframe:height" → d.msgType ≠ some "pong" →
        d.msgType ≠ some "payload" →
      onMessage (some w) payload ch ⟨some w, d⟩ = (ch, [])) := by
  refine ⟨?_, ?_, ?_, ?_⟩
  · intro h h1 h2
    simp [onMessage, heightUpdate, h1, h2]
  · intro h1
    simp [onMessage, heightUpdate, h1]
  · intro h1
    simp [onMessage, heightUpdate, h1]
  · intro h1 h2 h3
    simp [onMessage, heightUpdate, h1, h2, h3]

/-- Witness for C2 at each of the three message types and a foreign type. -/
theorem onMessage_contract_witness :
    onMessage (some 7) (42 : Int) 650 ⟨some 7, ⟨some "iframe:height", some 90, none⟩⟩ =
      (200, [])
    ∧ onMessage (some 7) (42 : Int) 650 ⟨some 7, ⟨some "pong", none, none⟩⟩ =
        (650, [HostReply.pongAck])
    ∧ onMessage (some 7) (42 : Int) 650 ⟨some 7, ⟨some "payload", none, some 3⟩⟩ =
        (650, [HostReply.payloadReply (some 3) 42])
    ∧ onMessage (some 7) (42 : Int) 650 ⟨some 7, ⟨some "resize", none, none⟩⟩ = (650, []) := by
  have h1 := onMessage_contract 7 (42 : Int) 650 ⟨some "iframe:height", some 90, none⟩
  have h2 := onMessage_contract 7 (42 : Int) 650 ⟨some "pong", none, none⟩
  have h3 := onMessage_contract 7 (42 : Int) 650 ⟨some "payload", none, some 3⟩
  have h4 := onMessage_contract 7 (42 : Int) 650 ⟨some "resize", none, none⟩
  exact ⟨h1.1 90 rfl rfl, h2.2.1 rfl, h3.2.2.1 rfl,
    h4.2.2.2 (by decide) (by decide) (by decide)⟩

/-- Claim C8: an event whose source is not the mounted iframe's
contentWindow (in particular when no iframe is mounted) leaves the state
unchanged and posts nothing; consequently two event sequences agreeing on
the subsequence of iframe-originated events produce identical host
behaviour. -/
theorem foreign_messages_noop {α : Type} (iframe : Option Nat) (payload : α) :
    (∀ ch e, fromIframe iframe e = false → onMessage iframe payload ch e = (ch, []))
    ∧ (∀ st evts1 evts2,
        evts1.filter (fromIframe iframe) = evts2.filter (fromIframe iframe) →
        runHost iframe payload st evts1 = runHost iframe payload st evts2) := by
  refine ⟨fun ch e h => onMessage_not_fromIframe iframe payload ch e h, ?_⟩
  intro st evts1 evts2 hfe
  rw [runHost_filter iframe payload evts1 st, runHost_filter iframe payload evts2 st, hfe]

/-- Witness for C8: a pong from a foreign window is ignored, and a run with
only foreign traffic equals the empty run. -/
theorem foreign_messages_noop_witness :
    onMessage (some 1) (0 : Int) 650 ⟨some 2, ⟨some "pong", none, none⟩⟩ = (650, [])
    ∧ runHost (some 1) (0 : Int) (650, [])
        [⟨some 2, ⟨some "iframe:height", some 10, none⟩⟩] =
      runHost (some 1) (0 : Int) (650, []) [] := by
  have h := foreign_messages_noop (some 1) (0 : Int)
  exact ⟨h.1 650 ⟨some 2, ⟨some "pong", none, none⟩⟩ (by decide),
    h.2 (650, []) [⟨some 2, ⟨some "iframe:height", some 10, none⟩⟩] [] (by decide)⟩

/-- Claim C3: a successful sign-in or sign-up stores the returned token when
one is present (JS-truthy), sets the user store, shows a success toast and
navigates to the redirect query parameter when present, else to the root;
a rejected auth call only shows an error toast: no token stored, no user
set, no navigation. -/
theorem auth_handlers_correct (u : SessionUser) (m : String)
    (redirectParam timezone : Option String)
    (confirmEnabled : Bool) (pw cpw : String)
    (hc : (confirmEnabled && pw != cpw) = false) :
    ((signInHandler (ApiResult.ok u) redirectParam timezone).storedToken =
        (if jsTruthy u.token then u.token else none)
      ∧ (signInHandler (ApiResult.ok u) redirectParam timezone).userStore = some u
      ∧ (signInHandler (ApiResult.ok u) redirectParam timezone).navigatedTo =
          some (if jsTruthy redirectParam then redirectParam.getD "/" else "/")
      ∧ Toast.success ∈ (signInHandler (ApiResult.ok u) redirectParam timezone).toasts)
    ∧ signInHandler (ApiResult.err m) redirectParam timezone =
        { noEffects with toasts := [Toast.error m] }
    ∧ signUpHandler confirmEnabled pw cpw (ApiResult.ok u) redirectParam timezone =
        signInHandler (ApiResult.ok u) redirectParam timezone
    ∧ signUpHandler confirmEnabled pw cpw (ApiResult.err m) redirectParam timezone =
        { noEffects with toasts := [Toast.error m] } := by
  refine ⟨⟨?_, ?_, ?_, ?_⟩, rfl, ?_, ?_⟩
  · simp [signInHandler, setSessionUser]
  · simp [signInHandler, setSessionUser]
  · simp [signInHandler, setSessionUser, jsTruthy]
  · simp [signInHandler, setSessionUser]
  · simp [signUpHandler, signInHandler, hc]
  · simp [signUpHandler, signInHandler, setSessionUser, noEffects, hc]

/-- Witness for C3 on a concrete session user, redirect and failure. -/
theorem auth_handlers_correct_witness :
    (signInHandler (ApiResult.ok ⟨some "tok"⟩) (some "/chat") (some "UTC")).storedToken =
      some "tok"
    ∧ (signInHandler (ApiResult.ok ⟨some "tok"⟩) (some "/chat") (some "UTC")).navigatedTo =
      some "/chat"
    ∧ signInHandler (ApiResult.err "401") (some "/chat") (some "UTC") =
      { noEffects with toasts := [Toast.error "401"] } := by
  have h := auth_handlers_correct ⟨some "tok"⟩ "401" (some "/chat") (some "UTC")
    true "pw" "pw" (by decide)
  exact ⟨by rw [h.1.1]; decide, by rw [h.1.2.2.1]; decide, h.2.1⟩

/-- A list is a Boolean prefix of itself followed by anything. -/
theorem isPrefixOf_self_append (pat u : Str) : pat.isPrefixOf (pat ++ u) = true := by
  induction pat with
  | nil => simp
  | cons a ps ih => simp [List.isPrefixOf, ih]

/-- A Boolean prefix is an actual prefix. -/
theorem eq_append_of_isPrefixOf {pat s : Str} (h : pat.isPrefixOf s = true) :
    ∃ u, s = pat ++ u := by
  induction pat generalizing s with
  | nil => exact ⟨s, rfl⟩
  | cons a ps ih =>
    cases s with
    | nil => exact absurd h (by simp [List.isPrefixOf])
    | cons b t =>
      have hb : (a == b) = true ∧ ps.isPrefixOf t = true := by
        simpa [List.isPrefixOf] using h
      obtain ⟨u, hu⟩ := ih hb.2
      cases eq_of_beq hb.1
      exact ⟨u, by rw [List.cons_append, hu]⟩

/-- Soundness of splitFirst: it reassembles its input around the pattern. -/
theorem splitFirst_append {pat : Str} : ∀ {s pre post : Str},
    splitFirst pat s = some (pre, post) → s = pre ++ pat ++ post := by
  intro s
  induction s with
  | nil =>
    intro pre post h
    unfold splitFirst at h
    split at h
    · rename_i hp
      have hpat : pat = [] := by simpa using hp
      cases h
      simp [hpat]
    · cases h
  | cons c t ih =>
    intro pre post h
    unfold splitFirst at h
    split at h
    · rename_i hp
      cases h
      obtain ⟨u, hu⟩ := eq_append_of_isPrefixOf hp
      rw [hu]
      simp [List.drop_left]
    · rename_i hp
      cases heq : splitFirst pat t with
      | none => rw [heq] at h; cases h
      | some pp =>
        obtain ⟨p1, p2⟩ := pp
        rw [heq] at h
        simp only [Option.map_some, Option.some.injEq, Prod.mk.injEq] at h
        obtain ⟨h1, h2⟩ := h
        subst h1
        subst h2
        rw [List.cons_append, List.cons_append, ih heq]

/-- Minimality of splitFirst: it splits at the first occurrence. -/
theorem splitFirst_first {pat : Str} : ∀ {s pre post : Str},
    splitFirst pat s = some (pre, post) →
    ∀ p q, s = p ++ pat ++ q → pre.length ≤ p.length := by
  intro s
  induction s with
  | nil =>
    intro pre post h p q _
    unfold splitFirst at h
    split at h
    · cases h; simp
    · cases h
  | cons c t ih =>
    intro pre post h p q hs
    unfold splitFirst at h
    split at h
    · cases h; simp
    · rename_i hp
      cases heq : splitFirst pat t with
      | none => rw [heq] at h; cases h
      | some pp =>
        obtain ⟨p1, p2⟩ := pp
        rw [heq] at h
        simp only [Option.map_some, Option.some.injEq, Prod.mk.injEq] at h
        obtain ⟨h1, _⟩ := h
        subst h1
        cases p with
        | nil =>
          exfalso
          apply hp
          rw [List.nil_append] at hs
          rw [hs]
          exact isPrefixOf_self_append pat q
        | cons a p2 =>
          rw [List.cons_append, List.cons_append] at hs
          have ht : t = p2 ++ pat ++ q := (List.cons.injEq c t a _).mp hs |>.2
          have hle := ih heq p2 q ht
          simpa using Nat.succ_le_succ hle

/-- containsSub agrees with splitFirst finding an occurrence. -/
theorem containsSub_eq_isSome (pat : Str) :
    ∀ s, containsSub pat s = (splitFirst pat s).isSome := by
  intro s
  induction s with
  | nil =>
    by_cases hp : pat.isEmpty = true <;> simp [containsSub, splitFirst, hp]
  | cons c t ih =>
    by_cases hp : pat.isPrefixOf (c :: t) = true
    · simp [containsSub, splitFirst, hp]
    · simp [containsSub, splitFirst, hp, ih]
      cases heq : splitFirst pat t <;> simp [heq]

/-- Claim C10: with allowSameOrigin false, processHtmlForDeps is the
identity on every HTML input, whatever the dependency tags would be. -/
theorem processHtml_identity_untrusted (alpineTag chartTag : Option Str) (html : Str) :
    processHtmlForDeps false alpineTag chartTag html = html := rfl

/-- Claim C4: whenever processHtmlForDeps decides to inject, the joined tags
are spliced by injectTags; injectTags inserts the tags (with their joining
newline) immediately before the first closing head tag when one occurs,
otherwise immediately before the first closing body tag when one occurs,
otherwise prepends them, and the rest of the HTML is unchanged. -/
theorem inject_placement (alpineTag chartTag : Option Str) (tags html pre post : Str)
    (hne : scriptTagsFor alpineTag chartTag html ≠ []) :
    processHtmlForDeps true alpineTag chartTag html =
      injectTags (List.intercalate ['\n'] (scriptTagsFor alpineTag chartTag html)) html
    ∧ (splitFirst headTag html = some (pre, post) →
        html = pre ++ headTag ++ post
        ∧ (∀ p q, html = p ++ headTag ++ q → pre.length ≤ p.length)
        ∧ injectTags tags html = pre ++ (tags ++ '\n' :: headTag) ++ post)
    ∧ (splitFirst headTag html = none → splitFirst bodyTag html = some (pre, post) →
        html = pre ++ bodyTag ++ post
        ∧ (∀ p q, html = p ++ bodyTag ++ q → pre.length ≤ p.length)
        ∧ injectTags tags html = pre ++ (tags ++ '\n' :: bodyTag) ++ post)
    ∧ (splitFirst headTag html = none → splitFirst bodyTag html = none →
        injectTags tags html = tags ++ '\n' :: html) := by
  refine ⟨?_, ?_, ?_, ?_⟩
  · have hemp : (scriptTagsFor alpineTag chartTag html).isEmpty = false := by
      cases hsc : scriptTagsFor alpineTag chartTag html with
      | nil => exact absurd hsc hne
      | cons a l => rfl
    simp [processHtmlForDeps, hemp]
  · intro hsp
    have hc : containsSub headTag html = true := by
      rw [containsSub_eq_isSome, hsp]; rfl
    exact ⟨splitFirst_append hsp, splitFirst_first hsp,
      by simp [injectTags, hc, replaceFirst, hsp]⟩
  · intro hh hb
    have hch : containsSub headTag html = false := by
      rw [containsSub_eq_isSome, hh]; rfl
    have hcb : containsSub bodyTag html = true := by
      rw [containsSub_eq_isSome, hb]; rfl
    exact ⟨splitFirst_append hb, splitFirst_first hb,
      by simp [injectTags, hch, hcb, replaceFirst, hb]⟩
  · intro hh hb
    have hch : containsSub headTag html = false := by
      rw [containsSub_eq_isSome, hh]; rfl
    have hcb : containsSub bodyTag html = false := by
      rw [containsSub_eq_isSome, hb]; rfl
    simp [injectTags, hch, hcb]

/-- Witness for C4: concrete injection before a closing head tag. -/
theorem inject_placement_witness :
    processHtmlForDeps true (some "ATAG".toList) none "<p x-data></head>z".toList =
      injectTags (List.intercalate ['\n']
        (scriptTagsFor (some "ATAG".toList) none "<p x-data></head>z".toList))
        "<p x-data></head>z".toList
    ∧ injectTags "ATAG".toList "<p x-data></head>z".toList =
        "<p x-data>".toList ++ ("ATAG".toList ++ '\n' :: headTag) ++ "z".toList := by
  have h := inject_placement (some "ATAG".toList) none "ATAG".toList
    "<p x-data></head>z".toList "<p x-data>".toList "z".toList (by decide)
  exact ⟨h.1, (h.2.1 (by decide)).2.2⟩

/-- Claim C5: with allowSameOrigin set and both dependency imports
available, the Alpine tag is among the pushed script tags exactly when some
Alpine directive substring occurs in the HTML, the Chart tag exactly when
the HTML mentions new Chart( or Chart., and nothing but these two tags is
ever pushed. -/
theorem dependency_injection_iff (a c html : Str) (hac : a ≠ c) :
    (a ∈ scriptTagsFor (some a) (some c) html ↔
      ∃ d, d ∈ alpineDirectives ∧ containsSub d html = true)
    ∧ (c ∈ scriptTagsFor (some a) (some c) html ↔
      (containsSub ("new Chart(".toList) html = true
        ∨ containsSub ("Chart.".toList) html = true))
    ∧ (∀ t, t ∈ scriptTagsFor (some a) (some c) html → t = a ∨ t = c) := by
  have hA : hasAlpineDirectives html = true ↔
      ∃ d, d ∈ alpineDirectives ∧ containsSub d html = true := by
    simp [hasAlpineDirectives, List.any_eq_true]
  have hC : hasChartJsDirectives html = true ↔
      (containsSub ("new Chart(".toList) html = true
        ∨ containsSub ("Chart.".toList) html = true) := by
    simp [hasChartJsDirectives, chartJsDirectives, List.any_eq_true]
  refine ⟨?_, ?_, ?_⟩
  · rw [← hA]
    by_cases h1 : hasAlpineDirectives html = true <;>
      by_cases h2 : hasChartJsDirectives html = true <;>
      simp [scriptTagsFor, h1, h2, hac]
  · rw [← hC]
    by_cases h1 : hasAlpineDirectives html = true <;>
      by_cases h2 : hasChartJsDirectives html = true <;>
      simp [scriptTagsFor, h1, h2, Ne.symm hac]
  · intro t ht
    by_cases h1 : hasAlpineDirectives html = true <;>
      by_cases h2 : hasChartJsDirectives html = true <;>
      simp [scriptTagsFor, h1, h2] at ht <;> tauto

/-- Witness for C5: an input that triggers both injections at once. -/
theorem dependency_injection_iff_witness :
    "ALPINETAG".toList ∈ scriptTagsFor (some "ALPINETAG".toList) (some "CHARTTAG".toList)
      "<p x-data>new Chart(</p>".toList
    ∧ "CHARTTAG".toList ∈ scriptTagsFor (some "ALPINETAG".toList) (some "CHARTTAG".toList)
      "<p x-data>new Chart(</p>".toList := by
  have h := dependency_injection_iff "ALPINETAG".toList "CHARTTAG".toList
    "<p x-data>new Chart(</p>".toList (by decide)
  exact ⟨h.1.mpr ⟨"x-data".toList, by decide, by decide⟩, h.2.1.mpr (Or.inl (by decide))⟩
